import Mathlib

set_option maxRecDepth 10000

/-
Verification of the OP_CHECKDATASIG activation test driver
(qa/rpc-tests/checkdatasig-activation.py).

The development shallowly embeds the chain-construction and comparison-test
driver of that script: its transaction and block builders, the fixed error
strings, the sequence of test events it drives against the node, and a model
of the median-time-past activation clock.  Python integers become Nat, Python
true division (the / operator on the fee path) becomes exact division in Rat,
and Python assertions or raised exceptions become Option results.
-/

/-- Activation threshold constant NOV152018_START_TIME from the script
(a far-future wall-clock time). -/
def NOV152018_START_TIME : Nat := 2000000000

/-- Shorthand used throughout: the activation threshold. -/
def THRESHOLD : Nat := NOV152018_START_TIME

/-- BAD_OPCODE_ERROR from the script: the script-verify failure text. -/
def BAD_OPCODE_ERROR : String :=
  "mandatory-script-verify-flag-failed (Opcode missing or not understood)"

/-- RPC_BAD_OPCODE_ERROR from the script: the pool-level reject message,
built as the 16-prefixed form of BAD_OPCODE_ERROR. -/
def RPC_BAD_OPCODE_ERROR : String := "16: " ++ BAD_OPCODE_ERROR

/-- Script opcodes appearing in the test driver. -/
inductive ScriptOp where
  | OP_CHECKDATASIG
  | OP_RETURN
  deriving DecidableEq, Repr

/-- One element of a CScript as the driver builds them: a data push
(byte list), an integer push (random.getrandbits result), or an opcode. -/
inductive ScriptElem where
  | data (bytes : List Nat)
  | num (k : Nat)
  | op (o : ScriptOp)
  deriving DecidableEq, Repr

/-- COutPoint: referenced transaction id (as a number) and output index. -/
structure COutPoint where
  hash : Nat
  n : Nat
  deriving DecidableEq, Repr

/-- CTxIn: the driver only ever sets the prevout field. -/
structure CTxIn where
  prevout : COutPoint
  deriving DecidableEq, Repr

/-- CTxOut: output value and locking script.  The value is a rational
because the fee subtraction in the script uses Python true division. -/
structure CTxOut where
  nValue : Rat
  scriptPubKey : List ScriptElem
  deriving DecidableEq, Repr

/-- CTransaction as the driver uses it: inputs and outputs. -/
structure CTransaction where
  vin : List CTxIn
  vout : List CTxOut
  deriving DecidableEq, Repr

/-- Fee expression shared verbatim by both builders in the script:
min(value/100, 1000) with Python true division, embedded as exact
division in Rat. -/
def fee (v : Rat) : Rat := min (v / 100) 1000

/-- Fixed DER signature pushed by create_checkdatasig_tx
(bytes of the hex literal in the script). -/
def fixedSignature : List Nat :=
  [0x30, 0x44, 0x02, 0x20, 0x25, 0x6c, 0x12, 0x17, 0x5e, 0x80, 0x93, 0x81,
   0xf9, 0x76, 0x37, 0x93, 0x3e, 0xd6, 0xab, 0x97, 0x73, 0x7d, 0x26, 0x3e,
   0xaa, 0xeb, 0xca, 0x6a, 0xdd, 0x21, 0xbc, 0xed, 0x67, 0xfd, 0x12, 0xa4,
   0x02, 0x20, 0x5c, 0xe2, 0x9e, 0xcc, 0x13, 0x69, 0xd6, 0xfc, 0x1b, 0x51,
   0x97, 0x7e, 0xd3, 0x8f, 0xaa, 0xf4, 0x11, 0x19, 0xe3, 0xbe, 0x1d, 0x7e,
   0xdf, 0xaf, 0xd7, 0xcf, 0xaf, 0x0b, 0x60, 0x61, 0xbd, 0x07]

/-- Fixed message pushed by create_checkdatasig_tx: the empty byte string. -/
def fixedMessage : List Nat := []

/-- Fixed public key pushed by create_checkdatasig_tx
(bytes of the hex literal in the script). -/
def fixedPubkey : List Nat :=
  [0x03, 0x82, 0x82, 0x26, 0x32, 0x12, 0xc6, 0x09, 0xd9, 0xea, 0x2a, 0x6e,
   0x3e, 0x17, 0x2d, 0xe2, 0x38, 0xd8, 0xc3, 0x9c, 0xab, 0xd5, 0xac, 0x1c,
   0xa1, 0x06, 0x46, 0xe2, 0x3f, 0xd5, 0xf5, 0x15, 0x08]

/-- The producing locking script used for every created output:
signature, empty message, public key, OP_CHECKDATASIG. -/
def producingScript : List ScriptElem :=
  [ScriptElem.data fixedSignature, ScriptElem.data fixedMessage,
   ScriptElem.data fixedPubkey, ScriptElem.op ScriptOp.OP_CHECKDATASIG]

/-- One entry of the listunspent answer, with the amount already converted
to satoshis: the script computes int(satoshi_round(amount) * COIN) and the
wallet only reports amounts exact at satoshi precision. -/
structure Utxo where
  txid : Nat
  vout : Nat
  amountSat : Nat
  deriving DecidableEq, Repr

/-- Embedding of create_checkdatasig_tx.  The Python assert on a nonempty
listunspent answer becomes the none result, as does the ZeroDivisionError
a zero count would raise; otherwise the first listed unspent output is
split into count outputs of value amountSat // count each locked with the
producing script, and min(value/100, 1000) is subtracted from the first
output only.  External wallet signing (signrawtransaction) does not alter
inputs or outputs and is omitted. -/
def create_checkdatasig_tx (utxos : List Utxo) (count : Nat) :
    Option CTransaction :=
  match utxos with
  | [] => none
  | utxo :: _ =>
    if count = 0 then none
    else
      let value : Nat := utxo.amountSat / count
      let outs := (List.range count).map
        (fun _ => CTxOut.mk (value : Rat) producingScript)
      let outs0 := outs.modifyHead
        (fun o => { o with nValue := o.nValue - fee (value : Rat) })
      some (CTransaction.mk [CTxIn.mk (COutPoint.mk utxo.txid utxo.vout)] outs0)

/-- PreviousSpendableOutput: the transaction owning the output we are
spending, and the output index. -/
structure PreviousSpendableOutput where
  tx : CTransaction
  n : Nat
  deriving DecidableEq, Repr

/-- Embedding of the spend_checkdatasig closure.  The Python list pop()
removes the LAST element of spendable_checkdatasigs; the built transaction
has one input referencing the popped outpoint (by the sha256 of the owning
transaction, supplied as the hashTx parameter) and two outputs: the spent
value minus min(value/100, 1000) under an empty script, and a zero-value
output pushing the random 800-bit number rnd followed by OP_RETURN.
A missing outpoint or an out-of-range index (a Python IndexError) becomes
none. -/
def spend_checkdatasig (hashTx : CTransaction → Nat)
    (spendables : List PreviousSpendableOutput) (rnd : Nat) :
    Option (CTransaction × List PreviousSpendableOutput) :=
  match spendables.getLast? with
  | none => none
  | some outpoint =>
    match outpoint.tx.vout.get? outpoint.n with
    | none => none
    | some out =>
      let tx : CTransaction :=
        CTransaction.mk
          [CTxIn.mk (COutPoint.mk (hashTx outpoint.tx) outpoint.n)]
          [CTxOut.mk (out.nValue - fee out.nValue) [],
           CTxOut.mk 0 [ScriptElem.num rnd, ScriptElem.op ScriptOp.OP_RETURN]]
      some (tx, spendables.dropLast)

/-- Iterated driver calls of spend_checkdatasig: performs k successive
spends (stopping early if the list is exhausted or an index is bad),
returning the constructed transactions in call order and the remaining
spendable list. -/
def spendIter (hashTx : CTransaction → Nat) :
    List PreviousSpendableOutput → Nat →
    List CTransaction × List PreviousSpendableOutput
  | l, 0 => ([], l)
  | l, k + 1 =>
    match spend_checkdatasig hashTx l 0 with
    | none => ([], l)
    | some (tx, l1) =>
      let r := spendIter hashTx l1 k
      (tx :: r.1, r.2)

/-- Outpoints referenced as inputs by a list of constructed transactions. -/
def refsOf (txs : List CTransaction) : List COutPoint :=
  txs.flatMap (fun tx => tx.vin.map (fun i => i.prevout))

/-- One level of the Merkle tree: hash adjacent pairs, duplicating the
last hash when the level is odd, exactly as the framework builds the root
bottom-up.  The pair hash is a parameter. -/
def levelUp (hp : Nat → Nat → Nat) : List Nat → List Nat
  | [] => []
  | [a] => [hp a a]
  | a :: b :: rest => hp a b :: levelUp hp rest

/-- Fueled form of the bottom-up Merkle loop: each step applies levelUp;
the loop stops on a single hash.  Since a level at least halves, fuel
equal to the initial length always suffices, so the fueled recursion
computes the same root the unbounded loop does. -/
def merkleFuel (hp : Nat → Nat → Nat) : Nat → List Nat → Nat
  | _, [] => 0
  | _, [a] => a
  | 0, a :: _ :: _ => a
  | f + 1, a :: b :: rest => merkleFuel hp f (levelUp hp (a :: b :: rest))

/-- Merkle root of a list of transaction hashes: repeat levelUp until one
hash remains (0 for the empty list). -/
def merkleOfHashes (hp : Nat → Nat → Nat) (l : List Nat) : Nat :=
  merkleFuel hp l.length l

/-- Modelled from the spec: calc_merkle_root of the framework block type
(test_framework.blocktools, not under src/) computes the Merkle root over
the identities of the full transaction list, coinbase as element zero.
Both the transaction identity hash and the pair hash are parameters. -/
def calc_merkle_root (hp : Nat → Nat → Nat) (txHash : CTransaction → Nat)
    (vtx : List CTransaction) : Nat :=
  merkleOfHashes hp (vtx.map txHash)

/-- Block as the driver assembles it: header fields and transaction list. -/
structure CBlock where
  hashPrevBlock : Nat
  nTime : Nat
  hashMerkleRoot : Nat
  nNonce : Nat
  vtx : List CTransaction
  deriving DecidableEq, Repr

/-- Modelled from the spec: block.solve() of the framework (not under
src/) searches for a proof-of-work nonce valid for the current header
fields.  The search is a parameter mapping the header contents the nonce
must commit to (previous hash, Merkle root, time) to the found nonce. -/
def solveBlock (solver : Nat × Nat × Nat → Nat) (b : CBlock) : CBlock :=
  { b with nNonce := solver (b.hashPrevBlock, b.hashMerkleRoot, b.nTime) }

/-- Modelled from the spec: create_block of the framework (not under
src/) assembles a block from the previous-block hash, the coinbase as
transaction zero and the chosen timestamp, computing the Merkle root. -/
def create_block (hp : Nat → Nat → Nat) (txHash : CTransaction → Nat)
    (prevHash : Nat) (coinbase : CTransaction) (blockTime : Nat) : CBlock :=
  CBlock.mk prevHash blockTime (calc_merkle_root hp txHash [coinbase]) 0
    [coinbase]

/-- Embedding of the next_block closure: create the block on the current
tip with the given coinbase and timestamp, then solve its proof of work
before it is yielded. -/
def next_block (hp : Nat → Nat → Nat) (txHash : CTransaction → Nat)
    (solver : Nat × Nat × Nat → Nat) (prevHash : Nat)
    (coinbase : CTransaction) (blockTime : Nat) : CBlock :=
  solveBlock solver (create_block hp txHash prevHash coinbase blockTime)

/-- Embedding of the add_tx closure: append the transaction to the block,
recompute the Merkle root over the full transaction list, and re-derive
the proof-of-work solution. -/
def add_tx (hp : Nat → Nat → Nat) (txHash : CTransaction → Nat)
    (solver : Nat × Nat × Nat → Nat) (b : CBlock) (tx : CTransaction) :
    CBlock :=
  let b1 := { b with vtx := b.vtx ++ [tx] }
  let b2 := { b1 with hashMerkleRoot := calc_merkle_root hp txHash b1.vtx }
  solveBlock solver b2

/-- Modelled from the spec: median-time-past as the node reports it is the
median timestamp of the most recent fixed-size window of blocks; the
window size 11 is forced by the boundary values the spec asserts
(threshold - 1 after the six-block run, threshold after one more block).
The chain is listed oldest first; the median of the sorted window of n
timestamps is taken at index n / 2. -/
def medianTimePast (chain : List Nat) : Nat :=
  ((chain.drop (chain.length - 11)).insertionSort (· ≤ ·)).getD
    (((chain.drop (chain.length - 11)).insertionSort (· ≤ ·)).length / 2) 0

/-- Expected outcome of yielding a block to the comparison tool:
accepted(tip) or rejected(tip, RejectResult(code, reason)). -/
inductive Outcome where
  | accept
  | rejectBlock (code : Nat) (reason : String)
  deriving DecidableEq, Repr

/-- Expected outcome of a sendrawtransaction call: accepted into the
pool, or an assert_raises_rpc_error with the given code and message. -/
inductive PoolExpect where
  | acceptPool
  | rejectRPC (code : Int) (msg : String)
  deriving DecidableEq, Repr

/-- One observable step of the get_tests driver, in the order the script
performs them.  Blocks are identified by the timestamp they were built
with plus whether the opcode-spending transaction tx0 was added to them;
transactions by driver-side names. -/
inductive Event where
  | generate (n : Nat)
  | poolSubmit (txName : String) (expect : PoolExpect)
  | setMockTime (t : Nat)
  | yieldBlock (time : Nat) (hasTx0 : Bool) (expect : Outcome)
  | assertMedianTime (t : Nat)
  | invalidateBlock (blockName : String)
  | waitForPool (timeout : Nat) (present : Bool) (txName : String)
  deriving DecidableEq, Repr

/-- The event sequence of get_tests, line by line: the 125-block and
1-block generates, the funding-transaction submission, the first
pre-activation rejection of tx0, setmocktime at the threshold, the
six-block run with timestamps NOV152018_START_TIME + i - 1, the
median assertion and second rejection at threshold - 1, the rejected
tx0-carrying block and the accepted activating block (both built at
threshold + 6), the median assertion at the threshold, the accepted
pool submission, the accepted tx0-carrying block at threshold + 7, and
the two invalidations each followed by a 3-second bounded wait. -/
def getTests : List Event :=
  [Event.generate 125,
   Event.poolSubmit "funding" PoolExpect.acceptPool,
   Event.generate 1,
   Event.poolSubmit "tx0" (PoolExpect.rejectRPC (-26) RPC_BAD_OPCODE_ERROR),
   Event.setMockTime NOV152018_START_TIME]
  ++ (List.range 6).map
      (fun i => Event.yieldBlock (NOV152018_START_TIME + i - 1) false
        Outcome.accept)
  ++ [Event.assertMedianTime (NOV152018_START_TIME - 1),
   Event.poolSubmit "tx0" (PoolExpect.rejectRPC (-26) RPC_BAD_OPCODE_ERROR),
   Event.yieldBlock (NOV152018_START_TIME + 6) true
     (Outcome.rejectBlock 16 "bad-blk-signatures"),
   Event.yieldBlock (NOV152018_START_TIME + 6) false Outcome.accept,
   Event.assertMedianTime NOV152018_START_TIME,
   Event.poolSubmit "tx0" PoolExpect.acceptPool,
   Event.yieldBlock (NOV152018_START_TIME + 7) true Outcome.accept,
   Event.invalidateBlock "nov152018forkblock",
   Event.waitForPool 3 true "tx0",
   Event.invalidateBlock "fork_block",
   Event.waitForPool 3 false "tx0"]

/-- Whether a yielded block is expected to be accepted (and hence extends
the node chain). -/
def expectIsAccept : Outcome → Bool
  | Outcome.accept => true
  | Outcome.rejectBlock _ _ => false

/-- Walk of the event list threading the node chain state (timestamps of
the active chain, oldest first).  generate appends the requested number
of node-chosen timestamps taken from the supply list, an accepted yield
appends the block time, a rejected yield leaves the chain unchanged, and
invalidateBlock removes the tip (both invalidations in the script target
the then-current tip).  Each event is paired with the chain as it stood
when the event was submitted. -/
def execTrace : List Event → List Nat → List Nat → List (Event × List Nat)
  | [], _, _ => []
  | e :: rest, chain, supply =>
    match e with
    | Event.generate n =>
      (e, chain) :: execTrace rest (chain ++ supply.take n) (supply.drop n)
    | Event.yieldBlock t _ expect =>
      (e, chain) ::
        execTrace rest (if expectIsAccept expect then chain ++ [t] else chain)
          supply
    | Event.invalidateBlock _ =>
      (e, chain) :: execTrace rest chain.dropLast supply
    | _ => (e, chain) :: execTrace rest chain supply

/-- Timestamps of the six-block run the driver yields after setmocktime. -/
def runTimes : List Nat :=
  (List.range 6).map (fun i => NOV152018_START_TIME + i - 1)

/-- Clock-override values set by the driver. -/
def mockTimes : List Nat :=
  getTests.filterMap (fun e =>
    match e with
    | Event.setMockTime t => some t
    | _ => none)

/-- Median-time-past values the driver asserts, in order. -/
def medianAsserts : List Nat :=
  getTests.filterMap (fun e =>
    match e with
    | Event.assertMedianTime t => some t
    | _ => none)

/-- The yielded blocks of the run between setmocktime and the first
median assertion: block time and expectation of each. -/
def runYields : List (Nat × Outcome) :=
  (getTests.takeWhile (fun e =>
    match e with
    | Event.assertMedianTime _ => false
    | _ => true)).filterMap (fun e =>
      match e with
      | Event.yieldBlock t _ expect => some (t, expect)
      | _ => none)

/-- Pool submissions of tx0 paired with the chain at submission time. -/
def tx0PoolSubmits (supply : List Nat) : List (List Nat × PoolExpect) :=
  (execTrace getTests [] supply).filterMap (fun p =>
    match p.1 with
    | Event.poolSubmit name expect =>
      if name = "tx0" then some (p.2, expect) else none
    | _ => none)

/-- Yielded blocks carrying tx0, paired with the chain each was validated
against and its expected outcome. -/
def tx0BlockYields (supply : List Nat) : List (List Nat × Nat × Outcome) :=
  (execTrace getTests [] supply).filterMap (fun p =>
    match p.1 with
    | Event.yieldBlock t hasTx0 expect =>
      if hasTx0 then some (p.2, t, expect) else none
    | _ => none)

/-- Block times of yields that carry tx0 and are expected rejected. -/
def rejectedTxBlockTimes : List Nat :=
  getTests.filterMap (fun e =>
    match e with
    | Event.yieldBlock t true (Outcome.rejectBlock _ _) => some t
    | _ => none)

/-- Modelled from the spec: waitFor of test_framework.util (not under
src/) polls the condition at short fixed intervals up to the bound and
fails hard when the condition never holds within it; true is success,
false is the hard test failure. -/
def waitFor (timeout : Nat) (pred : Nat → Bool) : Bool :=
  (List.range (timeout + 1)).any pred

/-- The invalidation and bounded-wait events of the reorg phase, with the
timeout, expected pool membership and transaction of each wait. -/
def reorgWaits : List (Nat × Bool × String) :=
  getTests.filterMap (fun e =>
    match e with
    | Event.waitForPool timeout present name => some (timeout, present, name)
    | _ => none)

/-- Median assertions of the driver paired with the model chain each is
made against. -/
def medianAssertChains (supply : List Nat) : List (List Nat × Nat) :=
  (execTrace getTests [] supply).filterMap (fun p =>
    match p.1 with
    | Event.assertMedianTime v => some (p.2, v)
    | _ => none)

/-- Value of the first output of a transaction (0 when there is none). -/
def firstOutputValue (tx : CTransaction) : Rat :=
  ((tx.vout.head?).map CTxOut.nValue).getD 0

/-- Concrete stand-in identity hash used to evaluate the driver on
explicit inputs: any function of the transaction serves, since the driver
treats the identity as opaque. -/
def testTxHash (tx : CTransaction) : Nat := tx.vout.length

/-- The funding transaction of the concrete scenario: one 25 BTC coinbase
output split 25 ways (2500000000 satoshis, as in a regtest run). -/
def cexFundingTx : CTransaction :=
  (create_checkdatasig_tx [Utxo.mk 0 0 2500000000] 25).getD
    (CTransaction.mk [] [])

/-- Registration of the spendable outputs exactly as the script builds
it: one PreviousSpendableOutput per output index of the funding
transaction, in index order. -/
def spendable_checkdatasigs : List PreviousSpendableOutput :=
  (List.range cexFundingTx.vout.length).map
    (fun i => PreviousSpendableOutput.mk cexFundingTx i)

/-- Sorting a list whose tail block is already sorted and dominates the
front block sorts only the front block in place. -/
theorem insertionSort_append_of_le (a b : List Nat)
    (hb : b.Sorted (· ≤ ·)) (hab : ∀ x ∈ a, ∀ y ∈ b, x ≤ y) :
    (a ++ b).insertionSort (· ≤ ·) = a.insertionSort (· ≤ ·) ++ b := by
  have hperm : List.Perm ((a ++ b).insertionSort (· ≤ ·))
      (a.insertionSort (· ≤ ·) ++ b) :=
    (List.perm_insertionSort _ _).trans
      (((List.perm_insertionSort (· ≤ ·) a).symm).append_right b)
  have h1 : ((a ++ b).insertionSort (· ≤ ·)).Sorted (· ≤ ·) :=
    List.sorted_insertionSort _ _
  have h2 : (a.insertionSort (· ≤ ·) ++ b).Sorted (· ≤ ·) := by
    refine (List.pairwise_append).mpr
      ⟨List.sorted_insertionSort _ _, hb, ?_⟩
    intro x hx y hy
    exact hab x ((List.perm_insertionSort _ _).mem_iff.mp hx) y hy
  exact List.eq_of_perm_of_sorted hperm h1 h2

/-- Master lemma for the activation clock: when at least six new
timestamps are appended to an older chain whose entries never exceed the
new ones, the 11-block median lands inside the new run, at offset
length - 6 from its start. -/
theorem medianTimePast_append (pre new : List Nat)
    (hnew : new.Sorted (· ≤ ·)) (h6 : 6 ≤ new.length)
    (h11 : new.length ≤ 11) (hpre : 11 - new.length ≤ pre.length)
    (hab : ∀ x ∈ pre, ∀ y ∈ new, x ≤ y) :
    medianTimePast (pre ++ new) = new.getD (new.length - 6) 0 := by
  have hdrop : (pre ++ new).drop ((pre ++ new).length - 11) =
      pre.drop (pre.length - (11 - new.length)) ++ new := by
    rw [List.drop_append_eq_append_drop]
    have h1 : (pre ++ new).length - 11 = pre.length - (11 - new.length) := by
      simp only [List.length_append]
      omega
    have h2 : pre.length - (11 - new.length) - pre.length = 0 := by omega
    rw [h1, h2, List.drop_zero]
  have ha : (pre.drop (pre.length - (11 - new.length))).length =
      11 - new.length := by
    simp only [List.length_drop]
    omega
  have hsort : ((pre.drop (pre.length - (11 - new.length))) ++
      new).insertionSort (· ≤ ·) =
      (pre.drop (pre.length - (11 - new.length))).insertionSort (· ≤ ·)
        ++ new := by
    apply insertionSort_append_of_le _ _ hnew
    intro x hx y hy
    exact hab x (List.drop_subset _ _ hx) y hy
  have hslen : ((pre.drop (pre.length - (11 - new.length))).insertionSort
      (· ≤ ·)).length = 11 - new.length := by
    rw [List.length_insertionSort]
    exact ha
  unfold medianTimePast
  rw [hdrop, hsort]
  have hlen2 : ((pre.drop (pre.length - (11 - new.length))).insertionSort
      (· ≤ ·) ++ new).length = 11 := by
    rw [List.length_append, hslen]
    omega
  rw [hlen2]
  have h5 : (11 : Nat) / 2 = 5 := by norm_num
  rw [h5]
  rw [List.getD_append_right _ _ _ _ (by omega : ((pre.drop
    (pre.length - (11 - new.length))).insertionSort (· ≤ ·)).length ≤ 5)]
  rw [hslen]
  congr 1
  omega

/-- The median-time-past model stays strictly below any bound that all
chain timestamps are strictly below. -/
theorem medianTimePast_lt_of_forall (c : List Nat) (B : Nat)
    (hB : 0 < B) (h : ∀ t ∈ c, t < B) : medianTimePast c < B := by
  unfold medianTimePast
  set s := (c.drop (c.length - 11)).insertionSort (· ≤ ·) with hs
  by_cases hn : s.length = 0
  · rw [List.length_eq_zero] at hn
    rw [hn]
    simpa using hB
  · have hidx : s.length / 2 < s.length := by omega
    rw [List.getD_eq_getElem s 0 hidx]
    apply h
    exact List.drop_subset _ _
      ((List.perm_insertionSort (· ≤ ·) _).mem_iff.mp (List.getElem_mem hidx))

/-- The event list fully evaluated. -/
theorem getTests_eq : getTests =
    [Event.generate 125,
     Event.poolSubmit "funding" PoolExpect.acceptPool,
     Event.generate 1,
     Event.poolSubmit "tx0" (PoolExpect.rejectRPC (-26) RPC_BAD_OPCODE_ERROR),
     Event.setMockTime 2000000000,
     Event.yieldBlock 1999999999 false Outcome.accept,
     Event.yieldBlock 2000000000 false Outcome.accept,
     Event.yieldBlock 2000000001 false Outcome.accept,
     Event.yieldBlock 2000000002 false Outcome.accept,
     Event.yieldBlock 2000000003 false Outcome.accept,
     Event.yieldBlock 2000000004 false Outcome.accept,
     Event.assertMedianTime 1999999999,
     Event.poolSubmit "tx0" (PoolExpect.rejectRPC (-26) RPC_BAD_OPCODE_ERROR),
     Event.yieldBlock 2000000006 true (Outcome.rejectBlock 16 "bad-blk-signatures"),
     Event.yieldBlock 2000000006 false Outcome.accept,
     Event.assertMedianTime 2000000000,
     Event.poolSubmit "tx0" PoolExpect.acceptPool,
     Event.yieldBlock 2000000007 true Outcome.accept,
     Event.invalidateBlock "nov152018forkblock",
     Event.waitForPool 3 true "tx0",
     Event.invalidateBlock "fork_block",
     Event.waitForPool 3 false "tx0"] := by
  rfl

/-- Median of the model chain right after the six-block run. -/
theorem medianTimePast_after_run (pre : List Nat) (h5 : 5 ≤ pre.length)
    (hold : ∀ t ∈ pre, t < 1999999999) :
    medianTimePast (pre ++
      [1999999999, 2000000000, 2000000001, 2000000002, 2000000003,
       2000000004]) = 1999999999 := by
  have h := medianTimePast_append pre
    [1999999999, 2000000000, 2000000001, 2000000002, 2000000003, 2000000004]
    (by decide) (by decide) (by decide) (by simpa using h5) ?_
  · simpa using h
  · intro x hx y hy
    have hy' : 1999999999 ≤ y := by
      fin_cases hy <;> decide
    exact le_trans (le_of_lt (hold x hx)) hy'

/-- Median of the model chain right after the activating block. -/
theorem medianTimePast_after_fork (pre : List Nat) (h5 : 5 ≤ pre.length)
    (hold : ∀ t ∈ pre, t < 1999999999) :
    medianTimePast (pre ++
      [1999999999, 2000000000, 2000000001, 2000000002, 2000000003,
       2000000004, 2000000006]) = 2000000000 := by
  have h := medianTimePast_append pre
    [1999999999, 2000000000, 2000000001, 2000000002, 2000000003, 2000000004,
     2000000006]
    (by decide) (by decide) (by decide) (by simp; omega) ?_
  · simpa using h
  · intro x hx y hy
    have hy' : 1999999999 ≤ y := by
      fin_cases hy <;> decide
    exact le_trans (le_of_lt (hold x hx)) hy'

/-- With 126 node-generated timestamps, the two generate calls together
rebuild the whole supply as the chain. -/
theorem take_drop_126 (supply : List Nat) (h : supply.length = 126) :
    supply.take 125 ++ (supply.drop 125).take 1 = supply := by
  have h1 : (supply.drop 125).length = 1 := by simp [h]
  rw [List.take_of_length_le (le_of_eq h1)]
  exact List.take_append_drop 125 supply

/-- The three pool submissions of tx0 with the model chain at each. -/
theorem tx0PoolSubmits_eq (supply : List Nat) (h : supply.length = 126) :
    tx0PoolSubmits supply =
      [(supply, PoolExpect.rejectRPC (-26) RPC_BAD_OPCODE_ERROR),
       (supply ++ [1999999999, 2000000000, 2000000001, 2000000002,
         2000000003, 2000000004],
        PoolExpect.rejectRPC (-26) RPC_BAD_OPCODE_ERROR),
       (supply ++ [1999999999, 2000000000, 2000000001, 2000000002,
         2000000003, 2000000004, 2000000006],
        PoolExpect.acceptPool)] := by
  unfold tx0PoolSubmits
  rw [getTests_eq]
  simp only [execTrace, expectIsAccept, List.nil_append]
  rw [take_drop_126 supply h]
  simp [List.append_assoc]

/-- The two tx0-carrying block yields with the model chain at each. -/
theorem tx0BlockYields_eq (supply : List Nat) (h : supply.length = 126) :
    tx0BlockYields supply =
      [(supply ++ [1999999999, 2000000000, 2000000001, 2000000002,
         2000000003, 2000000004], 2000000006,
        Outcome.rejectBlock 16 "bad-blk-signatures"),
       (supply ++ [1999999999, 2000000000, 2000000001, 2000000002,
         2000000003, 2000000004, 2000000006], 2000000007,
        Outcome.accept)] := by
  unfold tx0BlockYields
  rw [getTests_eq]
  simp only [execTrace, expectIsAccept, List.nil_append]
  rw [take_drop_126 supply h]
  simp [List.append_assoc]

/-- The two median assertions with the model chain at each. -/
theorem medianAssertChains_eq (supply : List Nat)
    (h : supply.length = 126) :
    medianAssertChains supply =
      [(supply ++ [1999999999, 2000000000, 2000000001, 2000000002,
         2000000003, 2000000004], 1999999999),
       (supply ++ [1999999999, 2000000000, 2000000001, 2000000002,
         2000000003, 2000000004, 2000000006], 2000000000)] := by
  unfold medianAssertChains
  rw [getTests_eq]
  simp only [execTrace, expectIsAccept, List.nil_append]
  rw [take_drop_126 supply h]
  simp [List.append_assoc]

/-- C1: the driver sets the clock override to exactly the activation
threshold 2000000000, yields exactly six blocks with strictly increasing
timestamps threshold - 1 through threshold + 4, each expected accepted;
the model median-time-past matches both driver assertions, threshold - 1
after the run and threshold after the single activating block. -/
theorem claim_C1_activation_clock (supply : List Nat)
    (hlen : supply.length = 126)
    (hsm : ∀ t ∈ supply, t < THRESHOLD - 1) :
    THRESHOLD = 2000000000 ∧
    mockTimes = [THRESHOLD] ∧
    runYields = [(THRESHOLD - 1, Outcome.accept), (THRESHOLD, Outcome.accept),
      (THRESHOLD + 1, Outcome.accept), (THRESHOLD + 2, Outcome.accept),
      (THRESHOLD + 3, Outcome.accept), (THRESHOLD + 4, Outcome.accept)] ∧
    (runYields.map Prod.fst).Pairwise (· < ·) ∧
    medianAsserts = [THRESHOLD - 1, THRESHOLD] ∧
    ∀ q ∈ medianAssertChains supply, medianTimePast q.1 = q.2 := by
  have hsm' : ∀ t ∈ supply, t < 1999999999 := by
    intro t ht
    have h := hsm t ht
    simpa [THRESHOLD, NOV152018_START_TIME] using h
  have h5 : 5 ≤ supply.length := by omega
  refine ⟨rfl, by decide, by decide, by decide, by decide, ?_⟩
  rw [medianAssertChains_eq supply hlen]
  intro q hq
  simp only [List.mem_cons, List.not_mem_nil, or_false] at hq
  rcases hq with rfl | rfl
  · exact medianTimePast_after_run supply h5 hsm'
  · exact medianTimePast_after_fork supply h5 hsm'

/-- Witness for C1 at a concrete 126-block pre-history. -/
theorem claim_C1_activation_clock_witness :
    (List.replicate 126 1).length = 126 ∧
    (∀ t ∈ List.replicate 126 1, t < THRESHOLD - 1) ∧
    (∀ q ∈ medianAssertChains (List.replicate 126 1),
      medianTimePast q.1 = q.2) :=
  ⟨by simp, by intro t ht; rw [List.eq_of_mem_replicate ht]; decide,
   (claim_C1_activation_clock (List.replicate 126 1) (by simp)
     (by intro t ht; rw [List.eq_of_mem_replicate ht]; decide)).2.2.2.2.2⟩

/-- C2 counterexample: the unique tx0-carrying block the driver expects
rejected is built with timestamp 2000000006, not the activation
threshold. -/
theorem claim_C2_counterexample :
    rejectedTxBlockTimes = [2000000006] ∧ THRESHOLD = 2000000000 ∧
    (2000000006 : Nat) ≠ THRESHOLD := by
  refine ⟨by decide, rfl, by decide⟩

/-- C2 amended: the boundary-case rejected block carrying the
opcode-spending transaction is built with timestamp threshold + 6. -/
theorem claim_C2_boundary_time :
    rejectedTxBlockTimes = [THRESHOLD + 6] := by decide

/-- C3: every driver submission of tx0 to the pool made while the model
median-time-past is strictly below the threshold expects exactly the
fixed pair (-26, RPC_BAD_OPCODE_ERROR); the submission made once
median-time-past reaches the threshold expects acceptance. -/
theorem claim_C3_pool_rejection (supply : List Nat)
    (hlen : supply.length = 126)
    (hsm : ∀ t ∈ supply, t < THRESHOLD - 1) :
    RPC_BAD_OPCODE_ERROR =
      "16: mandatory-script-verify-flag-failed (Opcode missing or not understood)" ∧
    (tx0PoolSubmits supply).length = 3 ∧
    ∀ q ∈ tx0PoolSubmits supply,
      (medianTimePast q.1 < THRESHOLD →
        q.2 = PoolExpect.rejectRPC (-26) RPC_BAD_OPCODE_ERROR) ∧
      (THRESHOLD ≤ medianTimePast q.1 → q.2 = PoolExpect.acceptPool) := by
  have hT : THRESHOLD = 2000000000 := rfl
  have hsm' : ∀ t ∈ supply, t < 1999999999 := by
    intro t ht
    have h := hsm t ht
    simpa [THRESHOLD, NOV152018_START_TIME] using h
  have h5 : 5 ≤ supply.length := by omega
  refine ⟨rfl, ?_, ?_⟩
  · rw [tx0PoolSubmits_eq supply hlen]
    rfl
  · rw [tx0PoolSubmits_eq supply hlen]
    intro q hq
    simp only [List.mem_cons, List.not_mem_nil, or_false] at hq
    rcases hq with rfl | rfl | rfl
    · constructor
      · intro _
        rfl
      · intro hge
        have hge' : THRESHOLD ≤ medianTimePast supply := hge
        have hlt := medianTimePast_lt_of_forall supply 1999999999
          (by omega) hsm'
        omega
    · constructor
      · intro _
        rfl
      · intro hge
        have hge' : THRESHOLD ≤ medianTimePast (supply ++
          [1999999999, 2000000000, 2000000001, 2000000002, 2000000003,
           2000000004]) := hge
        have hm := medianTimePast_after_run supply h5 hsm'
        omega
    · constructor
      · intro hlt
        have hlt' : medianTimePast (supply ++
          [1999999999, 2000000000, 2000000001, 2000000002, 2000000003,
           2000000004, 2000000006]) < THRESHOLD := hlt
        have hm := medianTimePast_after_fork supply h5 hsm'
        omega
      · intro _
        rfl

/-- Witness for C3 at a concrete 126-block pre-history. -/
theorem claim_C3_pool_rejection_witness :
    (List.replicate 126 1).length = 126 ∧
    (tx0PoolSubmits (List.replicate 126 1)).length = 3 :=
  ⟨by simp,
   (claim_C3_pool_rejection (List.replicate 126 1) (by simp)
     (by intro t ht; rw [List.eq_of_mem_replicate ht]; decide)).2.1⟩

/-- C4: the tx0-carrying block yielded while the model median-time-past
is below the threshold expects exactly the block-level rejection pair
(16, bad-blk-signatures), whose reason differs from both forms of the
pool-level message; the tx0-carrying block yielded once median-time-past
reaches the threshold expects acceptance. -/
theorem claim_C4_block_rejection (supply : List Nat)
    (hlen : supply.length = 126)
    (hsm : ∀ t ∈ supply, t < THRESHOLD - 1) :
    ("bad-blk-signatures" ≠ BAD_OPCODE_ERROR ∧
     "bad-blk-signatures" ≠ RPC_BAD_OPCODE_ERROR) ∧
    (tx0BlockYields supply).length = 2 ∧
    ∀ q ∈ tx0BlockYields supply,
      (medianTimePast q.1 < THRESHOLD →
        q.2.2 = Outcome.rejectBlock 16 "bad-blk-signatures") ∧
      (THRESHOLD ≤ medianTimePast q.1 → q.2.2 = Outcome.accept) := by
  have hT : THRESHOLD = 2000000000 := rfl
  have hsm' : ∀ t ∈ supply, t < 1999999999 := by
    intro t ht
    have h := hsm t ht
    simpa [THRESHOLD, NOV152018_START_TIME] using h
  have h5 : 5 ≤ supply.length := by omega
  refine ⟨⟨by decide, by decide⟩, ?_, ?_⟩
  · rw [tx0BlockYields_eq supply hlen]
    rfl
  · rw [tx0BlockYields_eq supply hlen]
    intro q hq
    simp only [List.mem_cons, List.not_mem_nil, or_false] at hq
    rcases hq with rfl | rfl
    · constructor
      · intro _
        rfl
      · intro hge
        have hge' : THRESHOLD ≤ medianTimePast (supply ++
          [1999999999, 2000000000, 2000000001, 2000000002, 2000000003,
           2000000004]) := hge
        have hm := medianTimePast_after_run supply h5 hsm'
        omega
    · constructor
      · intro hlt
        have hlt' : medianTimePast (supply ++
          [1999999999, 2000000000, 2000000001, 2000000002, 2000000003,
           2000000004, 2000000006]) < THRESHOLD := hlt
        have hm := medianTimePast_after_fork supply h5 hsm'
        omega
      · intro _
        rfl

/-- Witness for C4 at a concrete 126-block pre-history. -/
theorem claim_C4_block_rejection_witness :
    (List.replicate 126 1).length = 126 ∧
    (tx0BlockYields (List.replicate 126 1)).length = 2 :=
  ⟨by simp,
   (claim_C4_block_rejection (List.replicate 126 1) (by simp)
     (by intro t ht; rw [List.eq_of_mem_replicate ht]; decide)).2.1⟩

/-- C5: the reorg phase performs exactly two bounded waits with timeout
3, in order: reappearance of tx0 in the pool right after invalidating the
tx0-carrying block, then disappearance right after invalidating the
activating block; the modelled waitFor returns the hard failure (false)
whenever the condition never holds within the bound, with no retry
beyond it. -/
theorem claim_C5_reorg_bounded_waits :
    reorgWaits = [(3, true, "tx0"), (3, false, "tx0")] ∧
    List.IsSuffix
      [Event.invalidateBlock "nov152018forkblock",
       Event.waitForPool 3 true "tx0",
       Event.invalidateBlock "fork_block",
       Event.waitForPool 3 false "tx0"] getTests ∧
    ∀ pred : Nat → Bool, (∀ k, k ≤ 3 → pred k = false) →
      waitFor 3 pred = false := by
  refine ⟨by decide, ?_, ?_⟩
  · refine ⟨[Event.generate 125,
      Event.poolSubmit "funding" PoolExpect.acceptPool,
      Event.generate 1,
      Event.poolSubmit "tx0" (PoolExpect.rejectRPC (-26) RPC_BAD_OPCODE_ERROR),
      Event.setMockTime 2000000000,
      Event.yieldBlock 1999999999 false Outcome.accept,
      Event.yieldBlock 2000000000 false Outcome.accept,
      Event.yieldBlock 2000000001 false Outcome.accept,
      Event.yieldBlock 2000000002 false Outcome.accept,
      Event.yieldBlock 2000000003 false Outcome.accept,
      Event.yieldBlock 2000000004 false Outcome.accept,
      Event.assertMedianTime 1999999999,
      Event.poolSubmit "tx0" (PoolExpect.rejectRPC (-26) RPC_BAD_OPCODE_ERROR),
      Event.yieldBlock 2000000006 true (Outcome.rejectBlock 16 "bad-blk-signatures"),
      Event.yieldBlock 2000000006 false Outcome.accept,
      Event.assertMedianTime 2000000000,
      Event.poolSubmit "tx0" PoolExpect.acceptPool,
      Event.yieldBlock 2000000007 true Outcome.accept], ?_⟩
    rw [getTests_eq]
    rfl
  · intro pred hpred
    unfold waitFor
    rw [List.any_eq_false]
    intro x hx
    have hx3 : x ≤ 3 := by
      have := List.mem_range.mp hx
      omega
    simp [hpred x hx3]

/-- Witness for C5: the never-true condition fails the bounded wait. -/
theorem claim_C5_reorg_bounded_waits_witness :
    waitFor 3 (fun _ => false) = false :=
  claim_C5_reorg_bounded_waits.2.2 (fun _ => false) (fun _ _ => rfl)

/-- Closed form of the funding builder on a nonempty listunspent answer:
the first output carries the fee deduction, the remaining count - 1
outputs are identical copies at the split value. -/
theorem create_checkdatasig_tx_eq (u : Utxo) (rest : List Utxo)
    (count : Nat) (hc : count ≠ 0) :
    create_checkdatasig_tx (u :: rest) count =
      some (CTransaction.mk [CTxIn.mk (COutPoint.mk u.txid u.vout)]
        (CTxOut.mk (((u.amountSat / count : Nat) : Rat) -
            fee ((u.amountSat / count : Nat) : Rat)) producingScript ::
          List.replicate (count - 1)
            (CTxOut.mk ((u.amountSat / count : Nat) : Rat)
              producingScript))) := by
  obtain ⟨m, rfl⟩ := Nat.exists_eq_succ_of_ne_zero hc
  simp only [create_checkdatasig_tx, if_neg hc]
  congr 1
  simp [List.map_const', List.replicate_succ, List.modifyHead]

/-- C6 counterexample: the fee the funding builder deducts is not a fixed
proportion of the split value; at values 100 and 200000 the deductions 1
and 1000 admit no common ratio. -/
theorem claim_C6_counterexample :
    (create_checkdatasig_tx [Utxo.mk 0 0 100] 1).map firstOutputValue =
      some 99 ∧
    (create_checkdatasig_tx [Utxo.mk 0 0 200000] 1).map firstOutputValue =
      some 199000 ∧
    ¬ ∃ c : Rat, (100 : Rat) - 99 = c * 100 ∧
      (200000 : Rat) - 199000 = c * 200000 := by
  refine ⟨?_, ?_, ?_⟩
  · rw [create_checkdatasig_tx_eq _ _ 1 one_ne_zero]
    simp only [Option.map_some]
    norm_num [firstOutputValue, fee]
  · rw [create_checkdatasig_tx_eq _ _ 1 one_ne_zero]
    simp only [Option.map_some]
    norm_num [firstOutputValue, fee]
  rintro ⟨c, h1, h2⟩
  have hc : c = 1 / 100 := by linarith
  rw [hc] at h2
  norm_num at h2

/-- C6 amended: given at least one spendable output the funding builder
splits the first listed output into count equal outputs at value
amountSat / count (floor), each locked with the producing script of a
fixed signature, empty message, fixed public key and OP_CHECKDATASIG, and
deducts the capped fee min(value/100, 1000) from the first output only;
with no spendable output it fails. -/
theorem claim_C6_funding_builder (u : Utxo) (rest : List Utxo)
    (count : Nat) (hc : 0 < count) :
    create_checkdatasig_tx [] count = none ∧
    producingScript = [ScriptElem.data fixedSignature,
      ScriptElem.data fixedMessage, ScriptElem.data fixedPubkey,
      ScriptElem.op ScriptOp.OP_CHECKDATASIG] ∧
    fixedMessage = [] ∧
    ∃ tx, create_checkdatasig_tx (u :: rest) count = some tx ∧
      tx.vin = [CTxIn.mk (COutPoint.mk u.txid u.vout)] ∧
      tx.vout.length = count ∧
      (∀ o ∈ tx.vout, o.scriptPubKey = producingScript) ∧
      tx.vout.head? = some (CTxOut.mk
        (((u.amountSat / count : Nat) : Rat) -
          fee ((u.amountSat / count : Nat) : Rat)) producingScript) ∧
      ∀ i, 0 < i → i < count →
        tx.vout.get? i = some (CTxOut.mk
          ((u.amountSat / count : Nat) : Rat) producingScript) := by
  refine ⟨rfl, rfl, rfl, ?_⟩
  refine ⟨_, create_checkdatasig_tx_eq u rest count (by omega), rfl, ?_, ?_, rfl, ?_⟩
  · simp [List.length_replicate]
    omega
  · intro o ho
    rcases List.mem_cons.mp ho with rfl | ho
    · rfl
    · rw [List.eq_of_mem_replicate ho]
  · intro i h0 hcnt
    obtain ⟨j, rfl⟩ := Nat.exists_eq_succ_of_ne_zero (Nat.pos_iff_ne_zero.mp h0)
    simp only [List.get?_cons_succ]
    rw [List.get?_eq_getElem?, List.getElem?_replicate, if_pos (by omega)]

/-- Witness for C6 at the concrete 25-way split of a 25 BTC output. -/
theorem claim_C6_funding_builder_witness :
    0 < 25 ∧
    ∃ tx, create_checkdatasig_tx [Utxo.mk 0 0 2500000000] 25 = some tx ∧
      tx.vin = [CTxIn.mk (COutPoint.mk 0 0)] ∧
      tx.vout.length = 25 ∧
      (∀ o ∈ tx.vout, o.scriptPubKey = producingScript) ∧
      tx.vout.head? = some (CTxOut.mk
        ((((2500000000 : Nat) / 25 : Nat) : Rat) -
          fee (((2500000000 : Nat) / 25 : Nat) : Rat)) producingScript) ∧
      ∀ i, 0 < i → i < 25 →
        tx.vout.get? i = some (CTxOut.mk
          (((2500000000 : Nat) / 25 : Nat) : Rat) producingScript) :=
  ⟨by decide,
   (claim_C6_funding_builder (Utxo.mk 0 0 2500000000) [] 25 (by decide)).2.2.2⟩

/-- C7 counterexample: in the concrete 25-output scenario the first
spend_checkdatasig call consumes output index 24, not index 0. -/
theorem claim_C7_counterexample :
    ((spend_checkdatasig testTxHash spendable_checkdatasigs 0).map
      (fun r => r.1.vin.map (fun i => i.prevout.n))) = some [24] ∧
    (24 : Nat) ≠ 0 := by
  refine ⟨by decide, by decide⟩

/-- C7 amended: the pre-activation spend attempt consumes the LAST
registered output of the funding transaction: with the 25 outputs
registered in index order, the popped outpoint is index 24, the built
transaction references exactly it, and 24 outpoints remain. -/
theorem claim_C7_spend_pops_last (hashTx : CTransaction → Nat)
    (t : CTransaction) (h : t.vout.length = 25) :
    ∃ r, spend_checkdatasig hashTx
        ((List.range 25).map (fun i => PreviousSpendableOutput.mk t i)) 0 =
        some r ∧
      r.1.vin.map (fun i => i.prevout) = [COutPoint.mk (hashTx t) 24] ∧
      r.2.length = 24 := by
  obtain ⟨out, hout⟩ : ∃ out, t.vout.get? 24 = some out :=
    ⟨t.vout.get ⟨24, by omega⟩, List.get?_eq_get _⟩
  unfold spend_checkdatasig
  rw [show ((List.range 25).map
      (fun i => PreviousSpendableOutput.mk t i)).getLast? =
      some (PreviousSpendableOutput.mk t 24) from rfl]
  dsimp only
  rw [hout]
  exact ⟨_, rfl, rfl, rfl⟩

/-- Witness for C7 at the concrete funding transaction. -/
theorem claim_C7_spend_pops_last_witness :
    cexFundingTx.vout.length = 25 ∧
    ∃ r, spend_checkdatasig testTxHash
        ((List.range 25).map
          (fun i => PreviousSpendableOutput.mk cexFundingTx i)) 0 = some r ∧
      r.1.vin.map (fun i => i.prevout) =
        [COutPoint.mk (testTxHash cexFundingTx) 24] ∧
      r.2.length = 24 :=
  ⟨by decide,
   claim_C7_spend_pops_last testTxHash cexFundingTx (by decide)⟩

/-- C9: add_tx appends the transaction, recomputes the Merkle root over
the full resulting transaction list and re-derives the proof-of-work
nonce from the final header; next_block computes the Merkle root over the
coinbase-only list and derives its nonce from the final header before the
block is yielded; the coinbase stays element zero when a transaction is
added to a next_block result. -/
theorem claim_C9_merkle_pow_invariant (hp : Nat → Nat → Nat)
    (txHash : CTransaction → Nat) (solver : Nat × Nat × Nat → Nat)
    (b : CBlock) (tx coinbase : CTransaction) (prevHash blockTime : Nat) :
    (add_tx hp txHash solver b tx).vtx = b.vtx ++ [tx] ∧
    (add_tx hp txHash solver b tx).hashMerkleRoot =
      calc_merkle_root hp txHash (b.vtx ++ [tx]) ∧
    (add_tx hp txHash solver b tx).nNonce =
      solver ((add_tx hp txHash solver b tx).hashPrevBlock,
        (add_tx hp txHash solver b tx).hashMerkleRoot,
        (add_tx hp txHash solver b tx).nTime) ∧
    (next_block hp txHash solver prevHash coinbase blockTime).vtx =
      [coinbase] ∧
    (next_block hp txHash solver prevHash coinbase blockTime).hashMerkleRoot
      = calc_merkle_root hp txHash [coinbase] ∧
    (next_block hp txHash solver prevHash coinbase blockTime).nNonce =
      solver ((next_block hp txHash solver prevHash coinbase
          blockTime).hashPrevBlock,
        (next_block hp txHash solver prevHash coinbase
          blockTime).hashMerkleRoot,
        (next_block hp txHash solver prevHash coinbase blockTime).nTime) ∧
    (add_tx hp txHash solver
      (next_block hp txHash solver prevHash coinbase blockTime) tx).vtx =
      [coinbase, tx] :=
  ⟨rfl, rfl, rfl, rfl, rfl, rfl, rfl⟩

/-- First-output value of any successful spend_checkdatasig result: the
spent value minus the shared fee expression. -/
theorem spend_firstOutputValue (hashTx : CTransaction → Nat)
    (l : List PreviousSpendableOutput) (rnd : Nat) (t : CTransaction)
    (n : Nat) (out : CTxOut)
    (hl : l.getLast? = some (PreviousSpendableOutput.mk t n))
    (hout : t.vout.get? n = some out) :
    (spend_checkdatasig hashTx l rnd).map (fun r => firstOutputValue r.1) =
      some (out.nValue - fee out.nValue) := by
  unfold spend_checkdatasig
  rw [hl]
  dsimp only
  rw [hout]
  rfl

/-- C10 counterexample: a source value of 100 satoshis is below the cap
threshold yet yields the integer fee 1 and the integer first-output value
99, refuting that every smaller source value gives a non-integer fee. -/
theorem claim_C10_counterexample :
    (100 : Nat) < 100000 ∧
    fee ((100 : Nat) : Rat) = 1 ∧
    (∃ z : Int, fee ((100 : Nat) : Rat) = (z : Rat)) ∧
    (∃ z : Int, ((100 : Nat) : Rat) - fee ((100 : Nat) : Rat) = (z : Rat)) ∧
    (create_checkdatasig_tx [Utxo.mk 0 0 100] 1).map firstOutputValue =
      some 99 := by
  have hfee : fee ((100 : Nat) : Rat) = 1 := by
    norm_num [fee, min_def]
  refine ⟨by norm_num, hfee, ⟨1, by rw [hfee]; norm_num⟩,
    ⟨99, by rw [hfee]; norm_num⟩, ?_⟩
  rw [create_checkdatasig_tx_eq _ _ 1 one_ne_zero]
  simp only [Option.map_some]
  norm_num [firstOutputValue, fee]

/-- C10 amended: in both builders the deducted fee is the shared
expression min(value/100, 1000) under exact (true) division; for source
values of at least 100000 satoshis the fee is exactly the integer 1000
(capped) and the first output stays integral; for smaller values the fee
is value/100, which together with the first-output value is non-integer
exactly when 100 does not divide the value. -/
theorem claim_C10_fee_behaviour (v : Nat) :
    fee (v : Rat) = min ((v : Rat) / 100) 1000 ∧
    (∀ u rest count, count ≠ 0 →
      (create_checkdatasig_tx (u :: rest) count).map firstOutputValue =
        some (((u.amountSat / count : Nat) : Rat) -
          fee ((u.amountSat / count : Nat) : Rat))) ∧
    (∀ hashTx l rnd t n out,
      l.getLast? = some (PreviousSpendableOutput.mk t n) →
      t.vout.get? n = some out →
      (spend_checkdatasig hashTx l rnd).map
        (fun r => firstOutputValue r.1) =
        some (out.nValue - fee out.nValue)) ∧
    (100000 ≤ v → fee (v : Rat) = 1000 ∧
      ∃ z : Int, (v : Rat) - fee (v : Rat) = (z : Rat)) ∧
    (v < 100000 → fee (v : Rat) = (v : Rat) / 100 ∧
      (100 ∣ v → (∃ z : Int, fee (v : Rat) = (z : Rat)) ∧
        ∃ z : Int, (v : Rat) - fee (v : Rat) = (z : Rat)) ∧
      (¬ 100 ∣ v → (¬ ∃ z : Int, fee (v : Rat) = (z : Rat)) ∧
        ¬ ∃ z : Int, (v : Rat) - fee (v : Rat) = (z : Rat))) := by
  refine ⟨rfl, ?_, ?_, ?_, ?_⟩
  · intro u rest count hc
    rw [create_checkdatasig_tx_eq u rest count hc]
    rfl
  · intro hashTx l rnd t n out hl hout
    exact spend_firstOutputValue hashTx l rnd t n out hl hout
  · intro h
    have h100 : (1000 : Rat) ≤ (v : Rat) / 100 := by
      rw [le_div_iff₀ (by norm_num : (0 : Rat) < 100)]
      norm_num
      exact_mod_cast h
    have hfee : fee (v : Rat) = 1000 := min_eq_right h100
    refine ⟨hfee, (v : Int) - 1000, ?_⟩
    rw [hfee]
    push_cast
    ring
  · intro h
    have h100 : (v : Rat) / 100 ≤ 1000 := by
      rw [div_le_iff₀ (by norm_num : (0 : Rat) < 100)]
      norm_num
      exact_mod_cast h.le
    have hfee : fee (v : Rat) = (v : Rat) / 100 := min_eq_left h100
    refine ⟨hfee, ?_, ?_⟩
    · rintro ⟨k, rfl⟩
      constructor
      · refine ⟨(k : Int), ?_⟩
        rw [hfee]
        push_cast
        field_simp
      · refine ⟨(99 * k : Int), ?_⟩
        rw [hfee]
        push_cast
        field_simp
        ring
    · intro hnd
      constructor
      · rintro ⟨z, hz⟩
        rw [hfee] at hz
        have hq : (v : Rat) = z * 100 := by
          field_simp at hz
          linarith
        have hz' : (v : Int) = z * 100 := by exact_mod_cast hq
        have hdvd : (100 : Int) ∣ (v : Int) := ⟨z, by linarith⟩
        exact hnd (by exact_mod_cast hdvd)
      · rintro ⟨z, hz⟩
        rw [hfee] at hz
        have h99 : (99 * v : Rat) = 100 * z := by
          field_simp at hz
          linarith
        have h99' : (99 * v : Int) = 100 * z := by exact_mod_cast h99
        have hdvd : (100 : Int) ∣ (99 * v : Int) := ⟨z, by linarith⟩
        have hdvdn : (100 : Nat) ∣ 99 * v := by exact_mod_cast hdvd
        have h1 : (100 : Nat) ∣ 100 * v := Dvd.intro v rfl
        have h2 := Nat.dvd_sub' h1 hdvdn
        have h3 : 100 * v - 99 * v = v := by omega
        rw [h3] at h2
        exact hnd h2

/-- Witness for C10 in both regimes: value 200000 gives the capped
integer fee 1000, value 150 gives the non-integer fee 150/100. -/
theorem claim_C10_fee_behaviour_witness :
    ((100000 : Nat) ≤ 200000 ∧ fee ((200000 : Nat) : Rat) = 1000) ∧
    ((150 : Nat) < 100000 ∧
      ¬ ∃ z : Int, fee ((150 : Nat) : Rat) = (z : Rat)) :=
  ⟨⟨by norm_num, ((claim_C10_fee_behaviour 200000).2.2.2.1 (by norm_num)).1⟩,
   ⟨by norm_num,
    (((claim_C10_fee_behaviour 150).2.2.2.2 (by norm_num)).2.2
      (by norm_num)).1⟩⟩

/-- Successful shape of one spend_checkdatasig call: on a nonempty list
whose last entry has an in-range index, the call returns the list without
its last element together with a transaction whose single input
references exactly the popped outpoint. -/
theorem spend_checkdatasig_sound (hashTx : CTransaction → Nat)
    (l : List PreviousSpendableOutput) (rnd : Nat) (hne : l ≠ [])
    (hr : (l.getLast hne).n < (l.getLast hne).tx.vout.length) :
    ∃ tx, spend_checkdatasig hashTx l rnd = some (tx, l.dropLast) ∧
      tx.vin.map (fun i => i.prevout) =
        [COutPoint.mk (hashTx (l.getLast hne).tx) (l.getLast hne).n] := by
  obtain ⟨out, hout⟩ :
      ∃ out, (l.getLast hne).tx.vout.get? (l.getLast hne).n = some out :=
    ⟨_, List.get?_eq_get hr⟩
  unfold spend_checkdatasig
  rw [List.getLast?_eq_getLast l hne]
  dsimp only
  rw [hout]
  exact ⟨_, rfl, rfl⟩

/-- Every outpoint referenced by the iterated spends comes from the
initial spendable list. -/
theorem spendIter_refs_subset (hashTx : CTransaction → Nat) :
    ∀ (k : Nat) (l : List PreviousSpendableOutput),
      (∀ p ∈ l, p.n < p.tx.vout.length) →
      ∀ r ∈ refsOf (spendIter hashTx l k).1,
        r ∈ l.map (fun p => COutPoint.mk (hashTx p.tx) p.n) := by
  intro k
  induction k with
  | zero =>
    intro l _ r hr
    simp [spendIter, refsOf] at hr
  | succ k ih =>
    intro l hrange r hr
    by_cases hne : l = []
    · subst hne
      have hnone : spend_checkdatasig hashTx ([] :
          List PreviousSpendableOutput) 0 = none := rfl
      simp [spendIter, hnone, refsOf] at hr
    · have hlast := hrange _ (List.getLast_mem hne)
      obtain ⟨tx, hspend, hvin⟩ :=
        spend_checkdatasig_sound hashTx l 0 hne hlast
      simp only [spendIter, hspend] at hr
      have hcons : refsOf (tx :: (spendIter hashTx l.dropLast k).1) =
          tx.vin.map (fun i => i.prevout) ++
            refsOf (spendIter hashTx l.dropLast k).1 := by
        simp [refsOf]
      rw [hcons, hvin] at hr
      rcases List.mem_append.mp hr with h | h
      · rw [List.mem_singleton] at h
        subst h
        exact List.mem_map_of_mem _ (List.getLast_mem hne)
      · have hsub := ih l.dropLast
          (fun p hp => hrange p ((List.dropLast_sublist l).subset hp)) r h
        exact ((List.dropLast_sublist l).map
          (fun p => COutPoint.mk (hashTx p.tx) p.n)).subset hsub

/-- Length decrease and distinctness of references over iterated driver
spends, by induction on the number of calls. -/
theorem spendIter_invariant (hashTx : CTransaction → Nat) :
    ∀ (k : Nat) (l : List PreviousSpendableOutput), k ≤ l.length →
      (l.map (fun p => COutPoint.mk (hashTx p.tx) p.n)).Nodup →
      (∀ p ∈ l, p.n < p.tx.vout.length) →
      (spendIter hashTx l k).2.length = l.length - k ∧
      (refsOf (spendIter hashTx l k).1).Nodup := by
  intro k
  induction k with
  | zero =>
    intro l _ _ _
    exact ⟨by simp [spendIter], by simp [spendIter, refsOf]⟩
  | succ k ih =>
    intro l hk hnd hrange
    have hne : l ≠ [] := by
      intro h
      subst h
      simp at hk
    have hlast := hrange _ (List.getLast_mem hne)
    obtain ⟨tx, hspend, hvin⟩ :=
      spend_checkdatasig_sound hashTx l 0 hne hlast
    have hd_len : l.dropLast.length = l.length - 1 := List.length_dropLast l
    have hk' : k ≤ l.dropLast.length := by omega
    have hnd' : (l.dropLast.map
        (fun p => COutPoint.mk (hashTx p.tx) p.n)).Nodup := by
      have hsubl := (List.dropLast_sublist l).map
        (fun p => COutPoint.mk (hashTx p.tx) p.n)
      exact hnd.sublist hsubl
    have hrange' : ∀ p ∈ l.dropLast, p.n < p.tx.vout.length :=
      fun p hp => hrange p ((List.dropLast_sublist l).subset hp)
    obtain ⟨ih_len, ih_nd⟩ := ih l.dropLast hk' hnd' hrange'
    constructor
    · simp only [spendIter, hspend]
      omega
    · simp only [spendIter, hspend]
      have hcons : refsOf (tx :: (spendIter hashTx l.dropLast k).1) =
          tx.vin.map (fun i => i.prevout) ++
            refsOf (spendIter hashTx l.dropLast k).1 := by
        simp [refsOf]
      rw [hcons, hvin]
      refine List.nodup_cons.mpr ⟨?_, ih_nd⟩
      intro hmem
      have hmem' := spendIter_refs_subset hashTx k l.dropLast hrange' _ hmem
      have hsplit : l.dropLast ++ [l.getLast hne] = l :=
        List.dropLast_append_getLast hne
      have hnd2 : ((l.dropLast ++ [l.getLast hne]).map
          (fun p => COutPoint.mk (hashTx p.tx) p.n)).Nodup := by
        rw [hsplit]
        exact hnd
      rw [List.map_append] at hnd2
      have hdisj := (List.nodup_append.mp hnd2).2.2
      exact hdisj hmem' (by simp)

/-- C8: each spend_checkdatasig call pops exactly the last outpoint,
builds the transaction that references it, and leaves a list one
shorter in which the popped outpoint no longer occurs; over any number
of successive calls the referenced outpoints are pairwise distinct and
the list length decreases by one per call. -/
theorem claim_C8_at_most_once (hashTx : CTransaction → Nat)
    (l : List PreviousSpendableOutput) (k : Nat) (hk : k ≤ l.length)
    (hnd : (l.map (fun p => COutPoint.mk (hashTx p.tx) p.n)).Nodup)
    (hrange : ∀ p ∈ l, p.n < p.tx.vout.length) :
    (∀ (rnd : Nat) (hne : l ≠ []),
      ∃ tx, spend_checkdatasig hashTx l rnd = some (tx, l.dropLast) ∧
        l.dropLast.length + 1 = l.length ∧
        tx.vin.map (fun i => i.prevout) =
          [COutPoint.mk (hashTx (l.getLast hne).tx) (l.getLast hne).n] ∧
        COutPoint.mk (hashTx (l.getLast hne).tx) (l.getLast hne).n ∉
          l.dropLast.map (fun p => COutPoint.mk (hashTx p.tx) p.n)) ∧
    (spendIter hashTx l k).2.length = l.length - k ∧
    (refsOf (spendIter hashTx l k).1).Nodup := by
  refine ⟨?_, spendIter_invariant hashTx k l hk hnd hrange⟩
  intro rnd hne
  have hlast := hrange _ (List.getLast_mem hne)
  obtain ⟨tx, hspend, hvin⟩ :=
    spend_checkdatasig_sound hashTx l rnd hne hlast
  refine ⟨tx, hspend, ?_, hvin, ?_⟩
  · have := List.length_dropLast l
    have hpos : 0 < l.length := List.length_pos.mpr hne
    omega
  · intro hmem
    have hsplit : l.dropLast ++ [l.getLast hne] = l :=
      List.dropLast_append_getLast hne
    have hnd2 : ((l.dropLast ++ [l.getLast hne]).map
        (fun p => COutPoint.mk (hashTx p.tx) p.n)).Nodup := by
      rw [hsplit]
      exact hnd
    rw [List.map_append] at hnd2
    have hdisj := (List.nodup_append.mp hnd2).2.2
    exact hdisj hmem (by simp)

/-- Witness for C8: the concrete 25-outpoint list consumed to
exhaustion. -/
theorem claim_C8_at_most_once_witness :
    25 ≤ spendable_checkdatasigs.length ∧
    (spendIter testTxHash spendable_checkdatasigs 25).2.length =
      spendable_checkdatasigs.length - 25 ∧
    (refsOf (spendIter testTxHash spendable_checkdatasigs 25).1).Nodup :=
  ⟨by decide,
   (claim_C8_at_most_once testTxHash spendable_checkdatasigs 25 (by decide)
     (by decide) (by decide)).2⟩
